import Mathlib

/-!
Shallow embedding of `vendor/github.com/cloudfoundry-community/go-cfclient/tasks.go`
(package `cfclient`): the task-resource REST client operations `ListTasks`,
`CreateTask`, `TaskByGuid`, `TasksByApp`, `TerminateTask` and their helpers
`makeTaskListRequest`, `parseTaskListRespones` (typo kept from the source) and
`createReader`.

Modelling conventions:

* A JSON document is the inductive `Json` below. Response body bytes are
  modelled as `Option Json`: `some j` for bytes that parse as the JSON value
  `j`, `none` for bytes that do not parse as JSON at all — including the `nil`
  byte slice, on which the Go `json.Unmarshal` fails with
  "unexpected end of JSON input". JSON numbers are restricted to integers;
  no claim involves fractional numbers. JSON objects are association lists
  of key/value pairs; objects with duplicate keys are not considered.
* Go `error` values are `Option String`: `none` is the nil error, `some m`
  an error whose message is `m`. `errors.Wrap`/`errors.Wrapf` from
  `github.com/pkg/errors` return nil when the wrapped cause is nil; `wrap`
  below models exactly that documented behaviour.
* The surrounding `*Client` provides `NewRequest`/`NewRequestWithBody`/
  `DoRequest`. A `Client` is modelled as the observable behaviour of
  `DoRequest`: a function from the request to either a request error or a
  `Resp` (status code plus body). Reading the body (`ioutil.ReadAll`) is
  modelled as always succeeding.
* Each operation returns, alongside its Go result, the list of requests it
  handed to `DoRequest`, in order; this trace records how many HTTP requests
  the operation performs and with which method/path/body.
* `time.Time` fields are modelled as the raw timestamp string; Go would
  additionally reject strings not in RFC3339 format, which no claim depends
  on. When `json.Unmarshal` fails, Go returns the partially-filled value
  alongside the non-nil error; the model returns the zero value instead —
  every caller in the source discards the value when the error is non-nil.
-/

set_option linter.dupNamespace false

namespace cfclient

/-- A JSON value. Numbers are restricted to integers (no claim involves
fractional numbers); objects are association lists. -/
inductive Json where
  | null : Json
  | bool (b : Bool) : Json
  | num (n : Int) : Json
  | str (s : String) : Json
  | arr (elems : List Json) : Json
  | obj (fields : List (String × Json)) : Json
deriving Repr

/-- Key lookup in the field list of a JSON object. -/
def lookupJson (k : String) : List (String × Json) → Option Json
  | [] => none
  | (k2, v) :: rest => if k2 = k then some v else lookupJson k rest

/-- Model of `github.com/pkg/errors` `Wrap`/`Wrapf`: a nil cause yields nil, otherwise
the message is prefixed onto the cause. -/
def wrap (err : Option String) (msg : String) : Option String :=
  match err with
  | none => none
  | some cause => some (msg ++ ": " ++ cause)

/-- Go `time.Time`, modelled as the raw timestamp string (see module comment). -/
structure Time where
  stamp : String := ""
deriving Repr, DecidableEq

/-- The `href`-carrying anonymous structs (`First`, `Last`, `Self`, `App`,
`Droplet`). -/
structure Href where
  Href : String := ""
deriving Repr, DecidableEq

/-- The anonymous `Pagination` struct of `TaskListResponse`. `Next` and
`Previous` are `interface\x7b\x7d` in the source: any JSON value, nil when absent. -/
structure Pagination where
  TotalResults : Int := 0
  TotalPages : Int := 0
  First : Href := {}
  Last : Href := {}
  Next : Json := Json.null
  Previous : Json := Json.null
deriving Repr

/-- The anonymous `Result` struct of `Task`. -/
structure TaskResult where
  FailureReason : String := ""
deriving Repr, DecidableEq

/-- The anonymous `Links` struct of `Task`. -/
structure TaskLinks where
  Self : Href := {}
  App : Href := {}
  Droplet : Href := {}
deriving Repr, DecidableEq

/-- A `Task` is a description of a task element. -/
structure Task where
  GUID : String := ""
  SequenceID : Int := 0
  Name : String := ""
  Command : String := ""
  State : String := ""
  MemoryInMb : Int := 0
  DiskInMb : Int := 0
  Result : TaskResult := {}
  CreatedAt : Time := {}
  UpdatedAt : Time := {}
  DropletGUID : String := ""
  Links : TaskLinks := {}
deriving Repr, DecidableEq

/-- A `TaskListResponse` is the JSON response from the API. -/
structure TaskListResponse where
  Pagination : Pagination := {}
  Tasks : List Task := []
deriving Repr

/-- A `TaskRequest` is a v3 JSON object (task creation parameters). -/
structure TaskRequest where
  Command : String := ""
  Name : String := ""
  MemoryInMegabyte : Int := 0
  DiskInMegabyte : Int := 0
  DropletGUID : String := ""
deriving Repr, DecidableEq

/-- An HTTP request as handed to `NewRequest`/`NewRequestWithBody`:
method, path, and the JSON body for `NewRequestWithBody` (none for
body-less requests). -/
structure Req where
  method : String
  path : String
  body : Option Json := none
deriving Repr

/-- An HTTP response as seen through `DoRequest`: the status code and the
body bytes (see module comment for the `Option Json` body encoding). -/
structure Resp where
  StatusCode : Nat
  Body : Option Json
deriving Repr

/-- The observable behaviour of the shared client operation `DoRequest`: either a
request error or a response. -/
def Client : Type := Req → Except String Resp

/-! ### `encoding/json` decoding into the structs above

The Go `json.Unmarshal` semantics for these struct shapes: a missing key or a
JSON `null` leaves the zero value of the field; a value of the wrong JSON kind is
an error; unknown keys are ignored; a top-level `null` leaves the whole
struct zero. Error message texts are representative (no claim inspects a
message of a decode error). -/

/-- Unmarshal a JSON value into a Go `string`. -/
def decodeString : Json → Except String String
  | .str s => .ok s
  | .null => .ok ""
  | _ => .error "json: cannot unmarshal value into Go string"

/-- Unmarshal a JSON value into a Go `int`. -/
def decodeInt : Json → Except String Int
  | .num n => .ok n
  | .null => .ok 0
  | _ => .error "json: cannot unmarshal value into Go int"

/-- Unmarshal a JSON value into `time.Time` (see module comment: the RFC3339
format check is not modelled). -/
def decodeTime : Json → Except String Time
  | .str s => .ok { stamp := s }
  | .null => .ok {}
  | _ => .error "json: cannot unmarshal value into Go time.Time"

/-- Decode a struct field: a missing key behaves like JSON `null` (both leave
the zero value for every field type appearing in these structs). -/
def jfield (kvs : List (String × Json)) (k : String)
    (dec : Json → Except String α) : Except String α :=
  dec ((lookupJson k kvs).getD Json.null)

/-- Unmarshal into an `href` struct. -/
def decodeHref : Json → Except String Href
  | .null => .ok {}
  | .obj kvs => do
    let h ← jfield kvs "href" decodeString
    return { Href := h }
  | _ => .error "json: cannot unmarshal value into Go struct"

/-- Unmarshal into the `Result` struct of `Task`. -/
def decodeTaskResult : Json → Except String TaskResult
  | .null => .ok {}
  | .obj kvs => do
    let r ← jfield kvs "failure_reason" decodeString
    return { FailureReason := r }
  | _ => .error "json: cannot unmarshal value into Go struct"

/-- Unmarshal into the `Links` struct of `Task`. -/
def decodeTaskLinks : Json → Except String TaskLinks
  | .null => .ok {}
  | .obj kvs => do
    let s ← jfield kvs "self" decodeHref
    let a ← jfield kvs "app" decodeHref
    let d ← jfield kvs "droplet" decodeHref
    return { Self := s, App := a, Droplet := d }
  | _ => .error "json: cannot unmarshal value into Go struct"

/-- Unmarshal into the `Pagination` struct of `TaskListResponse`.
`interface\x7b\x7d` fields accept any JSON value. -/
def decodePagination : Json → Except String Pagination
  | .null => .ok {}
  | .obj kvs => do
    let tr ← jfield kvs "total_results" decodeInt
    let tp ← jfield kvs "total_pages" decodeInt
    let f ← jfield kvs "first" decodeHref
    let l ← jfield kvs "last" decodeHref
    let n := (lookupJson "next" kvs).getD Json.null
    let p := (lookupJson "previous" kvs).getD Json.null
    return { TotalResults := tr, TotalPages := tp, First := f, Last := l,
             Next := n, Previous := p }
  | _ => .error "json: cannot unmarshal value into Go struct"

/-- Unmarshal a JSON value into `Task`. -/
def decodeTask : Json → Except String Task
  | .null => .ok {}
  | .obj kvs => do
    let guid ← jfield kvs "guid" decodeString
    let seq ← jfield kvs "sequence_id" decodeInt
    let name ← jfield kvs "name" decodeString
    let command ← jfield kvs "command" decodeString
    let state ← jfield kvs "state" decodeString
    let mem ← jfield kvs "memory_in_mb" decodeInt
    let disk ← jfield kvs "disk_in_mb" decodeInt
    let result ← jfield kvs "result" decodeTaskResult
    let created ← jfield kvs "created_at" decodeTime
    let updated ← jfield kvs "updated_at" decodeTime
    let droplet ← jfield kvs "droplet_guid" decodeString
    let links ← jfield kvs "links" decodeTaskLinks
    return { GUID := guid, SequenceID := seq, Name := name, Command := command,
             State := state, MemoryInMb := mem, DiskInMb := disk,
             Result := result, CreatedAt := created, UpdatedAt := updated,
             DropletGUID := droplet, Links := links }
  | _ => .error "json: cannot unmarshal value into Go struct Task"

/-- Unmarshal the elements of a JSON array into `Task`s, in order. -/
def decodeTaskList : List Json → Except String (List Task)
  | [] => .ok []
  | j :: rest => do
    let t ← decodeTask j
    let ts ← decodeTaskList rest
    return t :: ts

/-- Unmarshal a JSON value into `[]Task` (`null` leaves the nil slice). -/
def decodeTasks : Json → Except String (List Task)
  | .null => .ok []
  | .arr elems => decodeTaskList elems
  | _ => .error "json: cannot unmarshal value into Go slice of Task"

/-- Unmarshal a JSON value into `TaskListResponse`. -/
def decodeTaskListResponse : Json → Except String TaskListResponse
  | .null => .ok {}
  | .obj kvs => do
    let pag ← jfield kvs "pagination" decodePagination
    let tasks ← jfield kvs "resources" decodeTasks
    return { Pagination := pag, Tasks := tasks }
  | _ => .error "json: cannot unmarshal value into Go struct TaskListResponse"

/-! ### The operations of `tasks.go` -/

/-- Helper `makeTaskListRequest`: GET `/v3/tasks`; on a request error, the wrapped
error; on a status other than 200, `errors.Wrapf` of the at-that-point nil
`err` (hence a nil error) and a nil body; on 200, the body bytes. Returns the
request trace alongside the Go results. -/
def makeTaskListRequest (c : Client) :
    List Req × (Option Json × Option String) :=
  let req : Req := { method := "GET", path := "/v3/tasks" }
  match c req with
  | .error e => ([req], (none, wrap (some e) "Error requesting tasks"))
  | .ok resp =>
    if resp.StatusCode ≠ 200 then
      ([req], (none, wrap none ("Error requesting tasks: status code not 200, it was "
        ++ toString resp.StatusCode)))
    else
      ([req], (resp.Body, none))

/-- Helper `parseTaskListRespones` (typo from the source): `json.Unmarshal` of the
body bytes into a `TaskListResponse`, the error wrapped with the literal
`"Error unmarshaling response %v"` message of the source (the `%v` is literal: the
source passes no argument for it). -/
def parseTaskListRespones (answer : Option Json) :
    TaskListResponse × Option String :=
  match answer with
  | none =>
    ({}, wrap (some "unexpected end of JSON input") "Error unmarshaling response %v")
  | some j =>
    match decodeTaskListResponse j with
    | .error e => ({}, wrap (some e) "Error unmarshaling response %v")
    | .ok r => (r, none)

/-- Operation `ListTasks` returns all tasks the user has access to. -/
def ListTasks (c : Client) : List Req × (List Task × Option String) :=
  let (trace, (body, err)) := makeTaskListRequest c
  match err with
  | some e => (trace, ([], wrap (some e) "Error requesting tasks"))
  | none =>
    match parseTaskListRespones body with
    | (_, some e) => (trace, ([], wrap (some e) "Error reading tasks"))
    | (response, none) => (trace, (response.Tasks, none))

/-- Helper `createReader`: builds the request-body map — `command` unconditionally,
`name`/`memory_in_mb`/`disk_in_mb` only when non-empty/non-zero, the quota
numbers rendered with `fmt.Sprintf("%d", ·)` so they are JSON strings; the
droplet GUID is never put in the map. JSON-encoding a `map[string]string`
cannot fail, so the error branch of the source is dead and the returned error is
nil. -/
def createReader (tr : TaskRequest) : List (String × Json) × Option String :=
  let rmap := [("command", Json.str tr.Command)]
  let rmap := if tr.Name ≠ "" then rmap ++ [("name", Json.str tr.Name)] else rmap
  let rmap := if tr.MemoryInMegabyte ≠ 0 then
      rmap ++ [("memory_in_mb", Json.str (toString tr.MemoryInMegabyte))]
    else rmap
  let rmap := if tr.DiskInMegabyte ≠ 0 then
      rmap ++ [("disk_in_mb", Json.str (toString tr.DiskInMegabyte))]
    else rmap
  (rmap, none)

/-- Operation `CreateTask` creates a new task in CF system and returns its structure:
POST `/v3/apps/{DropletGUID}/tasks` with the `createReader` body, then
`json.Unmarshal` the response body into a `Task` with no status-code check. -/
def CreateTask (c : Client) (tr : TaskRequest) :
    List Req × (Task × Option String) :=
  let (rmap, rerr) := createReader tr
  match rerr with
  | some e => ([], ({}, some e))
  | none =>
    let req : Req := { method := "POST",
                       path := "/v3/apps/" ++ tr.DropletGUID ++ "/tasks",
                       body := some (Json.obj rmap) }
    match c req with
    | .error e => ([req], ({}, wrap (some e) "Error creating task"))
    | .ok resp =>
      match resp.Body with
      | none =>
        ([req], ({}, wrap (some "unexpected end of JSON input") "Error unmarshaling task"))
      | some j =>
        match decodeTask j with
        | .error e => ([req], ({}, wrap (some e) "Error unmarshaling task"))
        | .ok task => ([req], (task, none))

/-- Operation `TaskByGuid` returns a task structure by requesting it with the tasks
GUID: GET `/v3/tasks/{guid}`, `json.Unmarshal` into `Task`, no status-code
check. -/
def TaskByGuid (c : Client) (guid : String) :
    List Req × (Task × Option String) :=
  let req : Req := { method := "GET", path := "/v3/tasks/" ++ guid }
  match c req with
  | .error e => ([req], ({}, wrap (some e) "Error requesting task"))
  | .ok resp =>
    match resp.Body with
    | none =>
      ([req], ({}, wrap (some "unexpected end of JSON input") "Error unmarshaling task"))
    | some j =>
      match decodeTask j with
      | .error e => ([req], ({}, wrap (some e) "Error unmarshaling task"))
      | .ok task => ([req], (task, none))

/-- Operation `TasksByApp` returns task structures aligned to the app identified by the
given guid: GET `/v3/apps/{guid}/tasks`, parse a `TaskListResponse`, return
its task list; no status-code check, no pagination follow-up. -/
def TasksByApp (c : Client) (guid : String) :
    List Req × (List Task × Option String) :=
  let req : Req := { method := "GET", path := "/v3/apps/" ++ guid ++ "/tasks" }
  match c req with
  | .error e => ([req], ([], wrap (some e) "Error requesting task"))
  | .ok resp =>
    match parseTaskListRespones resp.Body with
    | (_, some e) => ([req], ([], wrap (some e) "Error parsing tasks"))
    | (response, none) => ([req], (response.Tasks, none))

/-- Operation `TerminateTask` cancels a task identified by its GUID: PUT
`/v3/tasks/{guid}/cancel`; on a status other than 202, `errors.Wrapf` of the
at-that-point nil `err` — hence a nil error. -/
def TerminateTask (c : Client) (guid : String) : List Req × Option String :=
  let req : Req := { method := "PUT", path := "/v3/tasks/" ++ guid ++ "/cancel" }
  match c req with
  | .error e => ([req], wrap (some e) "Error terminating task")
  | .ok resp =>
    if resp.StatusCode ≠ 202 then
      ([req], wrap none ("Failed terminating task, response status code "
        ++ toString resp.StatusCode))
    else
      ([req], none)

/-- A second reading of the `CreateTask` body, following the specification
words rather than the source: a JSON object containing "only the
non-empty/non-zero fields among \x7bcommand, name, memory_in_mb, disk_in_mb\x7d"
— so in this reading an empty command is omitted as well. It is compared
against `createReader` (the definition translated from the source), which
always emits the `command` key. -/
def claimedCreateBody (tr : TaskRequest) : List (String × Json) :=
  (if tr.Command ≠ "" then [("command", Json.str tr.Command)] else [])
  ++ (if tr.Name ≠ "" then [("name", Json.str tr.Name)] else [])
  ++ (if tr.MemoryInMegabyte ≠ 0 then
        [("memory_in_mb", Json.str (toString tr.MemoryInMegabyte))]
      else [])
  ++ (if tr.DiskInMegabyte ≠ 0 then
        [("disk_in_mb", Json.str (toString tr.DiskInMegabyte))]
      else [])

/-! ### Helper lemmas -/

/-- `CreateTask` hands exactly one request to `DoRequest`, whatever the client
does: a POST to `/v3/apps/{DropletGUID}/tasks` carrying the `createReader`
body. -/
theorem CreateTask_trace (c : Client) (tr : TaskRequest) :
    (CreateTask c tr).1
      = [⟨"POST", "/v3/apps/" ++ tr.DropletGUID ++ "/tasks",
          some (Json.obj (createReader tr).1)⟩] := by
  simp only [CreateTask, createReader]
  split
  · rfl
  · split
    · rfl
    · split <;> rfl

/-- `TaskByGuid` hands exactly one request to `DoRequest`, whatever the client
does: a GET of `/v3/tasks/{guid}` with no body. -/
theorem TaskByGuid_trace (c : Client) (guid : String) :
    (TaskByGuid c guid).1 = [⟨"GET", "/v3/tasks/" ++ guid, none⟩] := by
  simp only [TaskByGuid]
  split
  · rfl
  · split
    · rfl
    · split <;> rfl

/-- `TasksByApp` hands exactly one request to `DoRequest`, whatever the client
does: a GET of `/v3/apps/{guid}/tasks` with no body. -/
theorem TasksByApp_trace (c : Client) (guid : String) :
    (TasksByApp c guid).1 = [⟨"GET", "/v3/apps/" ++ guid ++ "/tasks", none⟩] := by
  simp only [TasksByApp]
  split
  · rfl
  · split <;> rfl

/-- A successful `decodeTaskList` run decodes the array elements pointwise and
in order: the decoded list is exactly the elementwise decode of the input. -/
theorem decodeTaskList_map {arr : List Json} {ts : List Task}
    (h : decodeTaskList arr = .ok ts) : arr.map decodeTask = ts.map Except.ok := by
  induction arr generalizing ts with
  | nil =>
    simp only [decodeTaskList] at h
    cases h
    rfl
  | cons j rest ih =>
    simp only [decodeTaskList] at h
    cases hj : decodeTask j with
    | error e => rw [hj] at h; simp [Bind.bind, Except.bind] at h
    | ok t =>
      rw [hj] at h
      cases hr : decodeTaskList rest with
      | error e => rw [hr] at h; simp [Bind.bind, Except.bind] at h
      | ok ts2 =>
        rw [hr] at h
        simp [Bind.bind, Except.bind, pure, Except.pure] at h
        subst h
        simp [List.map, hj, ih hr]

/-! ### Claims -/

/-- C1: the claim states that `TerminateTask` returns a nil error on status
202 and a non-nil error referencing the status code on any other status. The
202 half holds, but on status 404 the source calls `errors.Wrapf` on the
at-that-point nil `err`, and `pkg/errors` returns nil for a nil cause — so
`TerminateTask` returns a nil error on 404 as well, contradicting the claim
and the evident intent of the format string
"Failed terminating task, response status code %d". -/
theorem TerminateTask_non202_nil_error_bug :
    (TerminateTask (fun _ => Except.ok ⟨202, none⟩) "abc").2 = none
    ∧ (TerminateTask (fun _ => Except.ok ⟨404, none⟩) "abc").2 = none :=
  ⟨rfl, rfl⟩

/-- C2: the claim states that on a non-200 status `ListTasks` returns a
non-nil error and an empty task list with the observed status code in the
message. The error is indeed non-nil and the list empty — but only because
the nil body then fails to unmarshal: the intended status error is lost
(`errors.Wrapf` of a nil cause is nil), and the resulting message
"Error reading tasks: Error unmarshaling response %v: unexpected end of JSON
input" contains no digit at all, hence not the observed status code 404. -/
theorem ListTasks_non200_no_status_in_message :
    (ListTasks (fun _ => Except.ok ⟨404, some (Json.obj [("resources", Json.arr [])])⟩)).2
      = ([], some "Error reading tasks: Error unmarshaling response %v: unexpected end of JSON input")
    ∧ (("Error reading tasks: Error unmarshaling response %v: unexpected end of JSON input").data.all
        fun ch => !ch.isDigit) = true := by
  constructor
  · rfl
  · decide

/-- C3 counterexample: with `TaskRequest \x7bCommand := "", DropletGUID := "d1"\x7d`
the body built by the source is `\x7b"command": ""\x7d`, while the claim words
("only the non-empty/non-zero fields among \x7bcommand, name, memory_in_mb,
disk_in_mb\x7d") would give the empty object: the claim as universally stated is
false at this input. -/
theorem createReader_empty_command_counterexample :
    (createReader { Command := "", DropletGUID := "d1" }).1 = [("command", Json.str "")]
    ∧ claimedCreateBody { Command := "", DropletGUID := "d1" } = []
    ∧ (createReader { Command := "", DropletGUID := "d1" }).1
        ≠ claimedCreateBody { Command := "", DropletGUID := "d1" } := by
  refine ⟨rfl, rfl, ?_⟩
  intro h
  have h2 : ([("command", Json.str "")] : List (String × Json)) = [] := h
  exact List.cons_ne_nil _ _ h2

/-- C3 amended: `CreateTask tr` sends exactly one POST to
`/v3/apps/{DropletGUID}/tasks` whose JSON body always contains `command`
(even when empty) and otherwise exactly the non-empty/non-zero fields among
`name`, `memory_in_mb`, `disk_in_mb`; `droplet_guid` is never placed in the
body; in particular with `\x7bCommand := "echo hi", DropletGUID := "d1"\x7d` the
body is exactly `\x7b"command": "echo hi"\x7d` and the path `/v3/apps/d1/tasks`. -/
theorem CreateTask_body_and_path :
    (∀ (c : Client) (tr : TaskRequest),
        (CreateTask c tr).1
          = [⟨"POST", "/v3/apps/" ++ tr.DropletGUID ++ "/tasks",
              some (Json.obj (createReader tr).1)⟩])
    ∧ (∀ tr : TaskRequest, lookupJson "droplet_guid" (createReader tr).1 = none)
    ∧ (∀ tr : TaskRequest, (createReader tr).1.map Prod.fst
        = ["command"]
          ++ (if tr.Name ≠ "" then ["name"] else [])
          ++ (if tr.MemoryInMegabyte ≠ 0 then ["memory_in_mb"] else [])
          ++ (if tr.DiskInMegabyte ≠ 0 then ["disk_in_mb"] else []))
    ∧ (createReader { Command := "echo hi", DropletGUID := "d1" }).1
        = [("command", Json.str "echo hi")]
    ∧ (∀ c : Client, (CreateTask c { Command := "echo hi", DropletGUID := "d1" }).1
          = [⟨"POST", "/v3/apps/d1/tasks",
              some (Json.obj [("command", Json.str "echo hi")])⟩]) := by
  refine ⟨CreateTask_trace, ?_, ?_, rfl, ?_⟩
  · intro tr
    by_cases h1 : tr.Name = "" <;> by_cases h2 : tr.MemoryInMegabyte = 0 <;>
      by_cases h3 : tr.DiskInMegabyte = 0 <;>
      simp [createReader, lookupJson, h1, h2, h3]
  · intro tr
    by_cases h1 : tr.Name = "" <;> by_cases h2 : tr.MemoryInMegabyte = 0 <;>
      by_cases h3 : tr.DiskInMegabyte = 0 <;>
      simp [createReader, h1, h2, h3]
  · intro c
    exact CreateTask_trace c { Command := "echo hi", DropletGUID := "d1" }

/-- C4: for every `TaskRequest` with non-zero `MemoryInMegabyte` (resp.
`DiskInMegabyte`), the body maps `memory_in_mb` (resp. `disk_in_mb`) to the
JSON *string* of the decimal representation of the quota — `Json.str`, never
`Json.num` — and in particular with `\x7bCommand := "x", Name := "n",
MemoryInMegabyte := 256, DiskInMegabyte := 512, DropletGUID := "d2"\x7d` the
body is exactly the four fields with `"memory_in_mb": "256"` and
`"disk_in_mb": "512"`, sent by a single POST to `/v3/apps/d2/tasks`. -/
theorem createReader_quota_fields_as_strings :
    (∀ tr : TaskRequest, tr.MemoryInMegabyte ≠ 0 →
        lookupJson "memory_in_mb" (createReader tr).1
          = some (Json.str (toString tr.MemoryInMegabyte)))
    ∧ (∀ tr : TaskRequest, tr.DiskInMegabyte ≠ 0 →
        lookupJson "disk_in_mb" (createReader tr).1
          = some (Json.str (toString tr.DiskInMegabyte)))
    ∧ (createReader { Command := "x", Name := "n", MemoryInMegabyte := 256,
                      DiskInMegabyte := 512, DropletGUID := "d2" }).1
        = [("command", Json.str "x"), ("name", Json.str "n"),
           ("memory_in_mb", Json.str "256"), ("disk_in_mb", Json.str "512")]
    ∧ (∀ c : Client,
        (CreateTask c { Command := "x", Name := "n", MemoryInMegabyte := 256,
                        DiskInMegabyte := 512, DropletGUID := "d2" }).1
          = [⟨"POST", "/v3/apps/d2/tasks",
              some (Json.obj [("command", Json.str "x"), ("name", Json.str "n"),
                              ("memory_in_mb", Json.str "256"),
                              ("disk_in_mb", Json.str "512")])⟩]) := by
  refine ⟨?_, ?_, rfl, fun c => ?_⟩
  · intro tr hm
    by_cases h1 : tr.Name = "" <;> by_cases h3 : tr.DiskInMegabyte = 0 <;>
      simp [createReader, lookupJson, h1, hm, h3]
  · intro tr hd
    by_cases h1 : tr.Name = "" <;> by_cases h2 : tr.MemoryInMegabyte = 0 <;>
      simp [createReader, lookupJson, h1, h2, hd]
  · exact CreateTask_trace c _

/-- C4 witness: at the concrete request of the claim, the quota hypotheses
hold and the two lookups give the decimal strings. -/
theorem createReader_quota_fields_as_strings_witness :
    lookupJson "memory_in_mb"
        (createReader { Command := "x", Name := "n", MemoryInMegabyte := 256,
                        DiskInMegabyte := 512, DropletGUID := "d2" }).1
      = some (Json.str "256")
    ∧ lookupJson "disk_in_mb"
        (createReader { Command := "x", Name := "n", MemoryInMegabyte := 256,
                        DiskInMegabyte := 512, DropletGUID := "d2" }).1
      = some (Json.str "512") :=
  ⟨createReader_quota_fields_as_strings.1
      { Command := "x", Name := "n", MemoryInMegabyte := 256,
        DiskInMegabyte := 512, DropletGUID := "d2" } (by decide),
    createReader_quota_fields_as_strings.2.1
      { Command := "x", Name := "n", MemoryInMegabyte := 256,
        DiskInMegabyte := 512, DropletGUID := "d2" } (by decide)⟩

/-- C5: on a 200 response whose body is a valid JSON `TaskListResponse`,
`ListTasks` returns a nil error and exactly the decoded task list; moreover
a decoded `resources` array is decoded pointwise and in order. -/
theorem ListTasks_200_valid_body :
    (∀ (j : Json) (r : TaskListResponse), decodeTaskListResponse j = .ok r →
        (ListTasks (fun _ => Except.ok ⟨200, some j⟩)).2 = (r.Tasks, none))
    ∧ (∀ (kvs : List (String × Json)) (arr : List Json) (r : TaskListResponse),
        lookupJson "resources" kvs = some (Json.arr arr) →
        decodeTaskListResponse (Json.obj kvs) = .ok r →
        decodeTaskList arr = .ok r.Tasks
        ∧ arr.map decodeTask = r.Tasks.map Except.ok) := by
  constructor
  · intro j r h
    simp [ListTasks, makeTaskListRequest, parseTaskListRespones, h]
  · intro kvs arr r hres hdec
    simp only [decodeTaskListResponse, jfield, hres, Option.getD_some] at hdec
    cases hp : decodePagination ((lookupJson "pagination" kvs).getD Json.null) with
    | error e => rw [hp] at hdec; simp [Bind.bind, Except.bind] at hdec
    | ok pag =>
      rw [hp] at hdec
      simp only [Bind.bind, Except.bind, decodeTasks] at hdec
      cases hl : decodeTaskList arr with
      | error e => rw [hl] at hdec; simp at hdec
      | ok ts =>
        rw [hl] at hdec
        simp only [pure, Except.pure] at hdec
        cases hdec
        exact ⟨rfl, decodeTaskList_map hl⟩

/-- C5 witness: a concrete 200 response with two resources decodes to the
two tasks in body order. -/
theorem ListTasks_200_valid_body_witness :
    (ListTasks (fun _ => Except.ok ⟨200,
        some (Json.obj [("resources", Json.arr [Json.null, Json.obj [("guid", Json.str "g")]])])⟩)).2
      = ([{}, { GUID := "g" }], none)
    ∧ decodeTaskList [Json.null, Json.obj [("guid", Json.str "g")]]
        = .ok [{}, { GUID := "g" }]
    ∧ [Json.null, Json.obj [("guid", Json.str "g")]].map decodeTask
        = [({} : Task), { GUID := "g" }].map Except.ok := by
  refine ⟨ListTasks_200_valid_body.1 _ ⟨{}, [{}, { GUID := "g" }]⟩ rfl, rfl, ?_⟩
  exact (ListTasks_200_valid_body.2
    [("resources", Json.arr [Json.null, Json.obj [("guid", Json.str "g")]])]
    [Json.null, Json.obj [("guid", Json.str "g")]]
    ⟨{}, [{}, { GUID := "g" }]⟩ rfl rfl).2

/-- C6: `CreateTask`, `TaskByGuid` and `TasksByApp` perform no status-code
check: whatever the status code (e.g. 4xx/5xx), a body that decodes into the
expected structure is returned with a nil error, and a decode failure
surfaces as a non-nil error. -/
theorem ops_decode_without_status_check :
    (∀ (sc : Nat) (j : Json) (t : Task) (tr : TaskRequest), decodeTask j = .ok t →
        (CreateTask (fun _ => Except.ok ⟨sc, some j⟩) tr).2 = (t, none))
    ∧ (∀ (sc : Nat) (j : Json) (t : Task) (guid : String), decodeTask j = .ok t →
        (TaskByGuid (fun _ => Except.ok ⟨sc, some j⟩) guid).2 = (t, none))
    ∧ (∀ (sc : Nat) (j : Json) (r : TaskListResponse) (guid : String),
        decodeTaskListResponse j = .ok r →
        (TasksByApp (fun _ => Except.ok ⟨sc, some j⟩) guid).2 = (r.Tasks, none))
    ∧ (∀ (sc : Nat) (j : Json) (e : String) (tr : TaskRequest), decodeTask j = .error e →
        (CreateTask (fun _ => Except.ok ⟨sc, some j⟩) tr).2.2 ≠ none)
    ∧ (∀ (sc : Nat) (j : Json) (e : String) (guid : String), decodeTask j = .error e →
        (TaskByGuid (fun _ => Except.ok ⟨sc, some j⟩) guid).2.2 ≠ none)
    ∧ (∀ (sc : Nat) (j : Json) (e : String) (guid : String),
        decodeTaskListResponse j = .error e →
        (TasksByApp (fun _ => Except.ok ⟨sc, some j⟩) guid).2.2 ≠ none) := by
  refine ⟨?_, ?_, ?_, ?_, ?_, ?_⟩
  · intro sc j t tr h
    simp [CreateTask, createReader, h]
  · intro sc j t guid h
    simp [TaskByGuid, h]
  · intro sc j r guid h
    simp [TasksByApp, parseTaskListRespones, h]
  · intro sc j e tr h
    simp [CreateTask, createReader, wrap, h]
  · intro sc j e guid h
    simp [TaskByGuid, wrap, h]
  · intro sc j e guid h
    simp [TasksByApp, parseTaskListRespones, wrap, h]

/-- C6 witness: on status 500/403 the three operations still return the
decoded value with a nil error, and a non-decodable body yields an error. -/
theorem ops_decode_without_status_check_witness :
    (CreateTask (fun _ => Except.ok ⟨500, some Json.null⟩) {}).2 = ({}, none)
    ∧ (TaskByGuid (fun _ => Except.ok ⟨403, some Json.null⟩) "g").2 = ({}, none)
    ∧ (TasksByApp (fun _ => Except.ok ⟨500, some Json.null⟩) "g").2 = ([], none)
    ∧ (CreateTask (fun _ => Except.ok ⟨200, some (Json.num 1)⟩) {}).2.2 ≠ none := by
  refine ⟨ops_decode_without_status_check.1 500 Json.null {} {} rfl,
    ops_decode_without_status_check.2.1 403 Json.null {} "g" rfl,
    ?_,
    ops_decode_without_status_check.2.2.2.1 200 (Json.num 1)
      "json: cannot unmarshal value into Go struct Task" {} rfl⟩
  exact ops_decode_without_status_check.2.2.1 500 Json.null ⟨{}, []⟩ "g" rfl

/-- C7: `TaskByGuid guid` issues exactly one GET request to
`/v3/tasks/{guid}` (for "abc": `/v3/tasks/abc`), and when the body
unmarshals it returns the decoded task with a nil error. -/
theorem TaskByGuid_single_get_request :
    (∀ (c : Client) (guid : String),
        (TaskByGuid c guid).1 = [⟨"GET", "/v3/tasks/" ++ guid, none⟩])
    ∧ (∀ c : Client, (TaskByGuid c "abc").1 = [⟨"GET", "/v3/tasks/abc", none⟩])
    ∧ (∀ (sc : Nat) (j : Json) (t : Task) (guid : String), decodeTask j = .ok t →
        (TaskByGuid (fun _ => Except.ok ⟨sc, some j⟩) guid).2 = (t, none)) := by
  refine ⟨TaskByGuid_trace, fun c => TaskByGuid_trace c "abc", ?_⟩
  intro sc j t guid h
  simp [TaskByGuid, h]

/-- C7 witness: `TaskByGuid "abc"` against a response whose body carries the
task decodes it. -/
theorem TaskByGuid_single_get_request_witness :
    (TaskByGuid (fun _ => Except.ok ⟨200, some (Json.obj [("guid", Json.str "abc")])⟩) "abc").2
      = ({ GUID := "abc" }, none) :=
  TaskByGuid_single_get_request.2.2 200 (Json.obj [("guid", Json.str "abc")])
    { GUID := "abc" } "abc" rfl

/-- C8: `TasksByApp guid` issues exactly one GET request to
`/v3/apps/{guid}/tasks` and returns only the single decoded page; even when
the decoded `pagination.next` is non-null, the request trace still has
length one (no follow-up request) and the result is that one page. -/
theorem TasksByApp_single_page_no_followup :
    (∀ (c : Client) (guid : String),
        (TasksByApp c guid).1 = [⟨"GET", "/v3/apps/" ++ guid ++ "/tasks", none⟩]
        ∧ (TasksByApp c guid).1.length = 1)
    ∧ (∀ (sc : Nat) (j : Json) (r : TaskListResponse) (guid : String),
        decodeTaskListResponse j = .ok r → r.Pagination.Next ≠ Json.null →
        (TasksByApp (fun _ => Except.ok ⟨sc, some j⟩) guid).2 = (r.Tasks, none)
        ∧ (TasksByApp (fun _ => Except.ok ⟨sc, some j⟩) guid).1.length = 1) := by
  constructor
  · intro c guid
    exact ⟨TasksByApp_trace c guid, by rw [TasksByApp_trace c guid]; rfl⟩
  · intro sc j r guid hdec _
    refine ⟨?_, by rw [TasksByApp_trace]; rfl⟩
    simp [TasksByApp, parseTaskListRespones, hdec]

/-- C8 witness: a concrete page with a non-null `pagination.next` link is
returned as-is after a single request. -/
theorem TasksByApp_single_page_no_followup_witness :
    (TasksByApp (fun _ => Except.ok ⟨200,
        some (Json.obj [("pagination", Json.obj [("next", Json.str "http://next.page")]),
                        ("resources", Json.arr [Json.null])])⟩) "app1").2
      = ([{}], none)
    ∧ (TasksByApp (fun _ => Except.ok ⟨200,
        some (Json.obj [("pagination", Json.obj [("next", Json.str "http://next.page")]),
                        ("resources", Json.arr [Json.null])])⟩) "app1").1.length = 1 :=
  TasksByApp_single_page_no_followup.2 200
    (Json.obj [("pagination", Json.obj [("next", Json.str "http://next.page")]),
               ("resources", Json.arr [Json.null])])
    { Pagination := { Next := Json.str "http://next.page" }, Tasks := [{}] } "app1" rfl
    (fun h => Json.noConfusion h)

/-- C9: the body built by `createReader` always contains the `command` key —
with the empty command the body is exactly `\x7b"command": ""\x7d` — and only
`name`, `memory_in_mb` and `disk_in_mb` are conditionally omitted. -/
theorem createReader_command_always_present :
    (∀ tr : TaskRequest, lookupJson "command" (createReader tr).1 = some (Json.str tr.Command))
    ∧ (createReader { DropletGUID := "d" }).1 = [("command", Json.str "")]
    ∧ (∀ tr : TaskRequest, (createReader tr).1.map Prod.fst
        = ["command"]
          ++ (if tr.Name ≠ "" then ["name"] else [])
          ++ (if tr.MemoryInMegabyte ≠ 0 then ["memory_in_mb"] else [])
          ++ (if tr.DiskInMegabyte ≠ 0 then ["disk_in_mb"] else [])) := by
  refine ⟨?_, rfl, ?_⟩
  · intro tr
    by_cases h1 : tr.Name = "" <;> by_cases h2 : tr.MemoryInMegabyte = 0 <;>
      by_cases h3 : tr.DiskInMegabyte = 0 <;>
      simp [createReader, lookupJson, h1, h2, h3]
  · intro tr
    by_cases h1 : tr.Name = "" <;> by_cases h2 : tr.MemoryInMegabyte = 0 <;>
      by_cases h3 : tr.DiskInMegabyte = 0 <;>
      simp [createReader, h1, h2, h3]

/-- C10 counterexample: the body `3` is valid JSON and has no `resources`
key, yet `ListTasks` (and `TasksByApp`) on a 200 response with that body
returns a decode error, not the nil error the claim predicts. -/
theorem ListTasks_200_invalid_shape_counterexample :
    (ListTasks (fun _ => Except.ok ⟨200, some (Json.num 3)⟩)).2
      = ([], some ("Error reading tasks: Error unmarshaling response %v: "
          ++ "json: cannot unmarshal value into Go struct TaskListResponse"))
    ∧ (ListTasks (fun _ => Except.ok ⟨200, some (Json.num 3)⟩)).2.2 ≠ none
    ∧ (TasksByApp (fun _ => Except.ok ⟨200, some (Json.num 3)⟩) "app").2.2 ≠ none := by
  refine ⟨rfl, ?_, ?_⟩ <;> decide

/-- C10 amended: on a 200 response whose body is a JSON object that
unmarshals into the `TaskListResponse` shape and lacks the `resources` key
(or has it null), `ListTasks` and `TasksByApp` return a nil error together
with the empty task list. -/
theorem missing_resources_nil_tasks :
    ∀ (kvs : List (String × Json)) (r : TaskListResponse) (guid : String),
      (lookupJson "resources" kvs = none ∨ lookupJson "resources" kvs = some Json.null) →
      decodeTaskListResponse (Json.obj kvs) = .ok r →
      r.Tasks = []
      ∧ (ListTasks (fun _ => Except.ok ⟨200, some (Json.obj kvs)⟩)).2 = ([], none)
      ∧ (TasksByApp (fun _ => Except.ok ⟨200, some (Json.obj kvs)⟩) guid).2 = ([], none) := by
  intro kvs r guid hres hdec
  have htasks : jfield kvs "resources" decodeTasks = .ok [] := by
    unfold jfield
    rcases hres with h | h <;> rw [h] <;> rfl
  have hTasks : r.Tasks = [] := by
    simp only [decodeTaskListResponse, htasks] at hdec
    cases hp : jfield kvs "pagination" decodePagination with
    | error e => rw [hp] at hdec; simp [Bind.bind, Except.bind] at hdec
    | ok pag =>
      rw [hp] at hdec
      simp only [Bind.bind, Except.bind, pure, Except.pure] at hdec
      cases hdec
      rfl
  refine ⟨hTasks, ?_, ?_⟩
  · simp [ListTasks, makeTaskListRequest, parseTaskListRespones, hdec, hTasks]
  · simp [TasksByApp, parseTaskListRespones, hdec, hTasks]

/-- C10 amended witness: the empty JSON object body gives a nil error and the
empty task list. -/
theorem missing_resources_nil_tasks_witness :
    ({} : TaskListResponse).Tasks = []
    ∧ (ListTasks (fun _ => Except.ok ⟨200, some (Json.obj [])⟩)).2 = ([], none)
    ∧ (TasksByApp (fun _ => Except.ok ⟨200, some (Json.obj [])⟩) "app").2 = ([], none) :=
  missing_resources_nil_tasks [] {} "app" (Or.inl rfl) rfl

end cfclient
